import Mathlib

/-
Verification model of the mcp-factcheck retrieval-and-validation pipeline.

Modelling conventions, stated once here:

* Go float64 is modelled as ℚ in the validator layer (all arithmetic there is
  field arithmetic: sums, division by a length, threshold comparisons), and as
  ℝ in the vector store layer, where cosine similarity takes square roots.
  Go float literals such as 0.7 are modelled as the exact rationals they denote
  in the source text (7/10).  Division by zero, which in Go produces NaN,
  yields 0 in this model; no theorem below relies on the value produced at
  such a point, and every place where the Go code can divide by zero is noted.
* External collaborators (the OpenAI embedding client, the langchaingo text
  splitter, the vector store as seen from the validator) are modelled as
  injected function parameters, mirroring how the Go handlers receive
  vectorDB and generator as arguments.
* Fallible Go functions returning (T, error) are modelled as Except String T.
  Telemetry, logging, and JSON rendering of responses are presentation-only
  and are not modelled; the functions below return the structured values that
  the Go code serializes.  The Matches / suggestions summary helpers
  (summarizeContentMatches and friends) are purely presentational and are
  likewise outside the model; no claim mentions them.
-/

deriving instance DecidableEq for Except

/-! ## Package internal/specs (src/unnamed/part_007) -/

namespace Specs

/-- Valid MCP spec versions, from internal/specs. -/
def ValidSpecVersions : List String := ["draft", "2025-06-18", "2025-03-26", "2024-11-05"]

/-- Default spec version, from internal/specs. -/
def DefaultSpecVersion : String := "2025-06-18"

/-- IsValidSpecVersion from internal/specs: slices.Contains on the fixed list. -/
def IsValidSpecVersion (version : String) : Bool :=
  ValidSpecVersions.contains version

end Specs

/-! ## Package embedding (src/internal/factcheck/embedding.go types, src/embedding/generator.go) -/

namespace Embedding

/-- EmbeddedChunk from internal/factcheck/embedding.go.  The FilePath, Section
and Metadata fields are carried by no claim and are omitted. -/
structure EmbeddedChunk where
  id : String
  version : String
  content : String
  embedding : List ℚ
deriving DecidableEq

/-- SearchResult from internal/factcheck/embedding.go, as consumed by the
validator layer, where similarity values are exact rationals. -/
structure SearchResult where
  chunk : EmbeddedChunk
  similarity : ℚ
  rank : ℕ
deriving DecidableEq

/-- One Data entry of an OpenAI embeddings response. -/
structure EmbeddingData where
  embedding : List ℚ
deriving DecidableEq

/-- The OpenAI embeddings response body consumed by Generator.GenerateEmbedding. -/
structure EmbeddingResponse where
  data : List EmbeddingData
deriving DecidableEq

/-- A failed provider call; transient records whether the failure was a
timeout or 5xx-equivalent (the classification the spec speaks about).  The Go
code never inspects such a classification. -/
structure ProviderFailure where
  message : String
  transient : Bool
deriving DecidableEq

/-- Generator.GenerateEmbedding from embedding/generator.go.  The remote
client is modelled as a stream of call outcomes indexed by attempt number, so
that a retrying implementation would be the one consulting client 1; the
source performs a single CreateEmbeddings call (attempt 0) and never retries.
The second component of the result is the number of client calls performed,
which is 1 on every path of the source.  The float32 → float64 element
conversion is the identity in this model. -/
def GenerateEmbedding (client : ℕ → Except ProviderFailure EmbeddingResponse) :
    Except String (List ℚ) × ℕ :=
  match client 0 with
  | .error e => (.error ("failed to create embedding: " ++ e.message), 1)
  | .ok resp =>
    match resp.data with
    | [] => (.error "no embedding data returned", 1)
    | d :: _ => (.ok d.embedding, 1)

end Embedding

/-! ## Package validator: types.go, content.go, code.go, chunking.go -/

namespace Validator

/-- ValidationResult from pkg/validator/types.go. -/
structure ValidationResult where
  isValid : Bool
  confidence : ℚ
  issues : List String := []
  suggestions : List String := []
  correctedVersion : String := ""
  specVersion : String
deriving DecidableEq

/-- The totalSimilarity accumulation loop shared by all three analyzers. -/
def totalSimilarity (results : List Embedding.SearchResult) : ℚ :=
  (results.map (·.similarity)).sum

/-- avgSimilarity := totalSimilarity / float64(len(results)), as computed by
each analyzer after its non-empty check. -/
def avgSimilarity (results : List Embedding.SearchResult) : ℚ :=
  totalSimilarity results / (results.length : ℚ)

/-- analyzeContentValidation from pkg/validator/content.go. -/
def analyzeContentValidation (content : String) (results : List Embedding.SearchResult)
    (specVersion : String) : ValidationResult :=
  if results.isEmpty then
    { isValid := false
      confidence := 1/10
      issues := ["No relevant MCP specification content found"]
      specVersion := specVersion }
  else
    let avg := avgSimilarity results
    let isValid := avg > 7/10
    let issues :=
      if isValid then []
      else ["Content may not align with MCP specification"] ++
        (if avg < 1/2 then ["Low similarity to MCP patterns detected"] else [])
    let suggestions :=
      if isValid then []
      else ["Review content against MCP specification",
            "Consider using standard MCP terminology and patterns"]
    { isValid := isValid
      confidence := avg
      issues := issues
      suggestions := suggestions
      specVersion := specVersion }

/-- analyzeChunkValidation from pkg/validator/chunking.go; identical in
structure to analyzeContentValidation, with chunk-flavoured messages. -/
def analyzeChunkValidation (content : String) (results : List Embedding.SearchResult)
    (specVersion : String) : ValidationResult :=
  if results.isEmpty then
    { isValid := false
      confidence := 1/10
      issues := ["No relevant MCP specification content found for this section"]
      specVersion := specVersion }
  else
    let avg := avgSimilarity results
    let isValid := avg > 7/10
    let issues :=
      if isValid then []
      else ["Content section may not align with MCP specification"] ++
        (if avg < 1/2 then ["Low similarity to MCP patterns detected"] else [])
    let suggestions :=
      if isValid then []
      else ["Review this section against MCP specification",
            "Consider using standard MCP terminology"]
    { isValid := isValid
      confidence := avg
      issues := issues
      suggestions := suggestions
      specVersion := specVersion }

/-- strings.Contains, on the underlying character lists. -/
def strContains (s pat : String) : Bool :=
  decide (pat.data <:+: s.data)

/-- The detected-pattern extraction inside analyzeCodeValidation
(pkg/validator/code.go): appends, in source order, each of the three
domain-pattern markers found in the derived code analysis. -/
def detectedPatterns (codeAnalysis : String) : List String :=
  (if strContains codeAnalysis "JSON-RPC" then ["JSON-RPC"] else []) ++
  (if strContains codeAnalysis "MCP tools" then ["MCP tools"] else []) ++
  (if strContains codeAnalysis "MCP server" then ["MCP server"] else [])

/-- analyzeCodeValidation from pkg/validator/code.go. -/
def analyzeCodeValidation (code codeAnalysis : String)
    (results : List Embedding.SearchResult) (specVersion : String) : ValidationResult :=
  if results.isEmpty then
    { isValid := false
      confidence := 1/10
      issues := ["No MCP-related patterns found in code"]
      specVersion := specVersion }
  else
    let avg := avgSimilarity results
    let patterns := detectedPatterns codeAnalysis
    let isValid := avg > 6/10 && !patterns.isEmpty
    let confidence := avg * ((patterns.length : ℚ) / 3)
    let issues :=
      if isValid then []
      else (if patterns.isEmpty then ["No MCP patterns detected in code"] else []) ++
        (if avg < 1/2 then ["Code structure doesn\x27t match MCP specification patterns"] else [])
    let suggestions :=
      (if isValid then []
       else (if patterns.isEmpty then ["Ensure code implements MCP protocol patterns"] else []) ++
         (if avg < 1/2 then ["Review MCP specification for proper implementation patterns"] else [])) ++
      (if isValid && !patterns.isEmpty then
        ["Detected MCP patterns: " ++ String.intercalate ", " patterns] else [])
    { isValid := isValid
      confidence := confidence
      issues := issues
      suggestions := suggestions
      specVersion := specVersion }

/-- strings.TrimSpace.  Written over the character list so that concrete
instances reduce; Go trims unicode whitespace on both ends. -/
def trimSpace (s : String) : String :=
  ⟨((s.data.dropWhile Char.isWhitespace).reverse.dropWhile Char.isWhitespace).reverse⟩

/-- ContentChunk from pkg/validator/chunking.go.  The langchaingo splitter
never classifies, so the kind field is always "text_chunk". -/
structure ContentChunk where
  id : String
  text : String
  position : ℕ
  kind : String
deriving DecidableEq

/-- ChunkingResult from pkg/validator/chunking.go. -/
structure ChunkingResult where
  chunks : List ContentChunk
  totalChunks : ℕ
  totalChars : ℕ
  estTokens : ℕ
deriving DecidableEq

/-- generateChunkID from pkg/validator/chunking.go. -/
def generateChunkID (p : String) (position : ℕ) : String :=
  p ++ "-" ++ toString position

/-- ChunkContent from pkg/validator/chunking.go.  The langchaingo text
splitter (markdown or recursive-character, selected on markup detection, with
the fallback to the whole content when the splitter errors) is an external
library and is injected as the splitter parameter. -/
def ChunkContent (splitter : String → List String) (content : String) : ChunkingResult :=
  if trimSpace content = "" then
    { chunks := [], totalChunks := 0, totalChars := 0, estTokens := 0 }
  else
    let docs := splitter content
    let chunks := docs.enum.map (fun p =>
      { id := generateChunkID "chunk" p.1
        text := trimSpace p.2
        position := p.1
        kind := "text_chunk" })
    { chunks := chunks
      totalChunks := chunks.length
      totalChars := content.length
      estTokens := content.length / 4 }

/-- ChunkValidationResult from pkg/validator/chunking.go.  In Go the entry
holds either a Verdict (validation) or an error string; the unused side is the
zero value, modelled as none.  The presentational Matches field is omitted. -/
structure ChunkValidationResult where
  chunk : ContentChunk
  validation : Option ValidationResult := none
  error : Option String := none
deriving DecidableEq

/-- AggregatedValidationResult from pkg/validator/chunking.go. -/
structure AggregatedValidationResult where
  chunkResults : List ChunkValidationResult
  overall : ValidationResult
  summary : String
  specVersion : String
deriving DecidableEq

/-- One iteration of the per-chunk loop in HandleChunkedValidation: embed the
chunk text, search, analyze, recording a provider or store failure against
this entry alone. -/
def processChunk (provider : String → Except String (List ℚ))
    (search : String → List ℚ → ℕ → Except String (List Embedding.SearchResult))
    (specVersion : String) (chunk : ContentChunk) : ChunkValidationResult :=
  match provider chunk.text with
  | .error e => { chunk := chunk, error := some ("failed to generate embedding: " ++ e) }
  | .ok emb =>
    match search specVersion emb 3 with
    | .error e => { chunk := chunk, error := some ("failed to search specifications: " ++ e) }
    | .ok results =>
      { chunk := chunk
        validation := some (analyzeChunkValidation chunk.text results specVersion) }

/-- The chunk loop of HandleChunkedValidation with its three accumulators:
the collected entries, totalSimilarity (sum of successful confidences) and
totalChunks (count of successfully analyzed chunks). -/
def chunkLoop (provider : String → Except String (List ℚ))
    (search : String → List ℚ → ℕ → Except String (List Embedding.SearchResult))
    (specVersion : String) :
    List ContentChunk → List ChunkValidationResult × ℚ × ℕ
  | [] => ([], 0, 0)
  | chunk :: rest =>
    let r := processChunk provider search specVersion chunk
    let (entries, totalSim, totalChunks) := chunkLoop provider search specVersion rest
    match r.validation with
    | some v => (r :: entries, totalSim + v.confidence, totalChunks + 1)
    | none => (r :: entries, totalSim, totalChunks)

/-- The overall-verdict construction at the end of HandleChunkedValidation.
The %.2f rendering of the average inside the first issue string is
presentational and is not reproduced digit-for-digit. -/
def overallValidation (totalChunks : ℕ) (avgConfidence : ℚ) (specVersion : String) :
    ValidationResult :=
  if avgConfidence > 7/10 then
    { isValid := true, confidence := avgConfidence, specVersion := specVersion }
  else
    { isValid := false
      confidence := avgConfidence
      issues := [toString totalChunks ++ " chunks analyzed with average confidence"] ++
        (if avgConfidence < 1/2 then
          ["Multiple sections show low alignment with MCP specification"] else [])
      suggestions := ["Review flagged sections against MCP specification",
                      "Consider using standard MCP terminology throughout"]
      specVersion := specVersion }

/-- HandleChunkedValidation from pkg/validator/chunking.go.  The second
component of the result is the trace of texts sent to the embedding provider:
the loop calls the provider exactly once per chunk, in chunk order.
When every chunk errors, totalChunks is 0 and the Go code divides 0 by 0,
producing a NaN average; in this model that division yields 0.  No theorem
below depends on the value at that point. -/
def HandleChunkedValidation (splitter : String → List String)
    (provider : String → Except String (List ℚ))
    (search : String → List ℚ → ℕ → Except String (List Embedding.SearchResult))
    (content specVersion : String) :
    Except String AggregatedValidationResult × List String :=
  let chunkingResult := ChunkContent splitter content
  if chunkingResult.chunks.isEmpty then
    (.error "no valid chunks found in content", [])
  else
    let (chunkResults, totalSim, totalChunks) :=
      chunkLoop provider search specVersion chunkingResult.chunks
    let avgConfidence := totalSim / (totalChunks : ℚ)
    (.ok
      { chunkResults := chunkResults
        overall := overallValidation totalChunks avgConfidence specVersion
        summary := "Analyzed " ++ toString chunkResults.length ++ " content chunks"
        specVersion := specVersion },
     chunkingResult.chunks.map (·.text))

/-- handleSingleValidation from pkg/validator/content.go, with the same
provider-call trace convention. -/
def handleSingleValidation (provider : String → Except String (List ℚ))
    (search : String → List ℚ → ℕ → Except String (List Embedding.SearchResult))
    (content specVersion : String) :
    Except String ValidationResult × List String :=
  match provider content with
  | .error e => (.error ("failed to generate content embedding: " ++ e), [content])
  | .ok emb =>
    match search specVersion emb 5 with
    | .error e => (.error ("failed to search specifications: " ++ e), [content])
    | .ok results => (.ok (analyzeContentValidation content results specVersion), [content])

/-- The typed shape of the validate_content tool arguments: content is
required; specVersion and useChunking fall back to their defaults when absent
or of the wrong dynamic type (the params[k].(T) assertions in Go). -/
structure ValidateContentParams where
  content : String
  specVersion : Option String := none
  useChunking : Option Bool := none
deriving DecidableEq

/-- The output of HandleValidateContent: a single verdict or an aggregate. -/
inductive ContentOutput where
  | single : ValidationResult → ContentOutput
  | chunked : AggregatedValidationResult → ContentOutput
deriving DecidableEq

/-- HandleValidateContent from pkg/validator/content.go: resolve defaulted
parameters, reject an invalid spec version before any provider call, then
dispatch on the chunking decision (explicit request, or content longer than
500 bytes). -/
def HandleValidateContent (splitter : String → List String)
    (provider : String → Except String (List ℚ))
    (search : String → List ℚ → ℕ → Except String (List Embedding.SearchResult))
    (params : ValidateContentParams) :
    Except String ContentOutput × List String :=
  let specVersion := params.specVersion.getD Specs.DefaultSpecVersion
  let useChunking := params.useChunking.getD false
  if !Specs.IsValidSpecVersion specVersion then
    (.error ("invalid spec version: " ++ specVersion), [])
  else
    let shouldChunk := useChunking || decide (params.content.length > 500)
    if shouldChunk then
      let r := HandleChunkedValidation splitter provider search params.content specVersion
      (r.1.map ContentOutput.chunked, r.2)
    else
      let r := handleSingleValidation provider search params.content specVersion
      (r.1.map ContentOutput.single, r.2)

/-- The typed shape of the validate_code tool arguments. -/
structure ValidateCodeParams where
  code : String
  specVersion : Option String := none
  language : Option String := none
deriving DecidableEq

/-- analyzeCodeForMCPPatterns from pkg/validator/code.go.  The Go code ranges
over a map, so the order of the found-pattern lines is unspecified there; this
model fixes the source-text order of the pattern table.  No claim depends on
the produced string. -/
def analyzeCodeForMCPPatterns (code language : String) : String :=
  let lowerCode := code.toLower
  let patternTable : List (String × String) :=
    [("json-rpc", "JSON-RPC protocol implementation"),
     ("mcp", "Model Context Protocol usage"),
     ("tools", "MCP tools implementation"),
     ("resources", "MCP resources implementation"),
     ("server", "MCP server implementation"),
     ("client", "MCP client implementation"),
     ("stdio", "Standard I/O transport"),
     ("initialize", "MCP initialization process"),
     ("notification", "MCP notifications"),
     ("request", "MCP requests handling"),
     ("response", "MCP responses handling"),
     ("error", "Error handling patterns"),
     ("schema", "Schema validation"),
     ("params", "Parameter handling"),
     ("result", "Result processing")]
  let found := (patternTable.filter (fun p => strContains lowerCode p.1)).map (·.2)
  let body :=
    if found.isEmpty then ["No obvious MCP patterns detected in the code"]
    else "Detected MCP patterns:" :: found.map ("- " ++ ·)
  String.intercalate "\n"
    ((["Language: " ++ language] ++ body) ++
     ["Code contains " ++ toString (code.splitOn "\n").length ++ " lines"])

/-- HandleValidateCode from pkg/validator/code.go: resolve defaults, reject an
invalid spec version before any provider call, then derive the code analysis,
embed it, search with topK 8, and analyze. -/
def HandleValidateCode (provider : String → Except String (List ℚ))
    (search : String → List ℚ → ℕ → Except String (List Embedding.SearchResult))
    (params : ValidateCodeParams) :
    Except String ValidationResult × List String :=
  let specVersion := params.specVersion.getD Specs.DefaultSpecVersion
  let language := params.language.getD "go"
  if !Specs.IsValidSpecVersion specVersion then
    (.error ("invalid spec version: " ++ specVersion), [])
  else
    let codeAnalysis := analyzeCodeForMCPPatterns params.code language
    match provider codeAnalysis with
    | .error e => (.error ("failed to generate code embedding: " ++ e), [codeAnalysis])
    | .ok emb =>
      match search specVersion emb 8 with
      | .error e => (.error ("failed to search specifications: " ++ e), [codeAnalysis])
      | .ok results =>
        (.ok (analyzeCodeValidation params.code codeAnalysis results specVersion), [codeAnalysis])

end Validator

/-! ## Package vectorstore (src/vectorstore/store.go) -/

namespace Vectorstore

/-- SearchResult as produced by the vector store layer, where similarity
values are the real numbers computed by cosineSimilarity.  This models the
same Go type as Embedding.SearchResult; the scalar differs because this layer
takes square roots. -/
structure SearchResult where
  chunk : Embedding.EmbeddedChunk
  similarity : ℝ
  rank : ℕ

/-- The dot-product accumulator of cosineSimilarity. -/
def dotProduct (a b : List ℚ) : ℚ :=
  (List.zipWith (· * ·) a b).sum

/-- The squared-norm accumulator (normA, normB before the square roots). -/
def normSq (a : List ℚ) : ℚ :=
  (a.map (fun x => x * x)).sum

/-- cosineSimilarity from vectorstore/store.go: zero on a length mismatch,
zero when either squared norm is zero, and otherwise the normalized dot
product. -/
noncomputable def cosineSimilarity (a b : List ℚ) : ℝ :=
  if a.length ≠ b.length then 0
  else if normSq a = 0 ∨ normSq b = 0 then 0
  else ((dotProduct a b : ℚ) : ℝ) /
    (Real.sqrt ((normSq a : ℚ) : ℝ) * Real.sqrt ((normSq b : ℚ) : ℝ))

/-- The rank-assignment loop of Store.Search: the i-th retained result (0
based) receives rank i+1.  In Go the ranks are written into the first topK
entries of the sorted slice, which is then truncated to topK; assigning after
truncation produces the same list. -/
def assignRanks : ℕ → List SearchResult → List SearchResult
  | _, [] => []
  | i, r :: rs => { r with rank := i } :: assignRanks (i + 1) rs

/-- The pure core of Store.Search on an already-loaded corpus: score every
chunk, sort by descending similarity, clamp topK to the corpus size, and
assign dense 1-based ranks.  Go uses sort.Slice with the strict greater-than
comparator, which sorts by non-increasing similarity with an unspecified
order among ties; mergeSort with the matching non-strict comparator is one
such sort. -/
noncomputable def searchResults (corpus : List Embedding.EmbeddedChunk)
    (queryEmbedding : List ℚ) (topK : ℕ) : List SearchResult :=
  let results := corpus.map (fun chunk =>
    { chunk := chunk
      similarity := cosineSimilarity queryEmbedding chunk.embedding
      rank := 0 })
  let sorted := results.mergeSort (fun x y => decide (y.similarity ≤ x.similarity))
  let k := min topK sorted.length
  assignRanks 1 (sorted.take k)

/-- Store.Search from vectorstore/store.go.  The Load step reads the
persisted corpus for the version from disk; its outcome is injected as the
load parameter.  A negative Go topK would panic on the final slice; topK is
therefore modelled as a natural number. -/
noncomputable def Search (load : Except String (List Embedding.EmbeddedChunk))
    (queryEmbedding : List ℚ) (topK : ℕ) :
    Except String (List SearchResult) :=
  match load with
  | .error e => .error ("failed to load spec embeddings: " ++ e)
  | .ok corpus => .ok (searchResults corpus queryEmbedding topK)

end Vectorstore

/-! ## Supporting lemmas: vector store -/

namespace Vectorstore

theorem assignRanks_length (i : ℕ) (l : List SearchResult) :
    (assignRanks i l).length = l.length := by
  induction l generalizing i with
  | nil => rfl
  | cons r rs ih => simp [assignRanks, ih]

theorem assignRanks_map_similarity (i : ℕ) (l : List SearchResult) :
    (assignRanks i l).map (·.similarity) = l.map (·.similarity) := by
  induction l generalizing i with
  | nil => rfl
  | cons r rs ih => simp [assignRanks, ih]

theorem assignRanks_map_rank (i : ℕ) (l : List SearchResult) :
    (assignRanks i l).map (·.rank) = List.range' i l.length := by
  induction l generalizing i with
  | nil => rfl
  | cons r rs ih => simp [assignRanks, ih, List.range'_succ]

theorem pairwise_assignRanks (i : ℕ) (l : List SearchResult)
    (h : l.Pairwise (fun a b => b.similarity ≤ a.similarity)) :
    (assignRanks i l).Pairwise (fun a b => b.similarity ≤ a.similarity) := by
  induction l generalizing i with
  | nil => exact List.Pairwise.nil
  | cons r rs ih =>
    rcases List.pairwise_cons.mp h with ⟨hr, hrs⟩
    refine List.pairwise_cons.mpr ⟨?_, ih (i + 1) hrs⟩
    intro b hb
    have hbsim : b.similarity ∈ (assignRanks (i + 1) rs).map (·.similarity) :=
      List.mem_map_of_mem _ hb
    rw [assignRanks_map_similarity] at hbsim
    rcases List.mem_map.mp hbsim with ⟨c, hc, hcb⟩
    simpa [← hcb] using hr c hc

theorem sorted_take_mergeSort (l : List SearchResult) (k : ℕ) :
    ((l.mergeSort (fun x y => decide (y.similarity ≤ x.similarity))).take k).Pairwise
      (fun a b => b.similarity ≤ a.similarity) := by
  have hs := @List.sorted_mergeSort SearchResult
    (fun x y : SearchResult => decide (y.similarity ≤ x.similarity))
    (fun a b c hab hbc => by
      simp only [decide_eq_true_eq] at *
      exact le_trans hbc hab)
    (fun a b => by
      rcases le_total a.similarity b.similarity with h | h <;> simp [h])
    l
  have hs' : (l.mergeSort (fun x y => decide (y.similarity ≤ x.similarity))).Pairwise
      (fun a b => b.similarity ≤ a.similarity) :=
    hs.imp (fun h => by simpa using h)
  exact List.Pairwise.sublist (List.take_sublist k _) hs'

end Vectorstore

namespace Vectorstore

theorem searchResults_length (corpus : List Embedding.EmbeddedChunk)
    (queryEmbedding : List ℚ) (topK : ℕ) :
    (searchResults corpus queryEmbedding topK).length = min topK corpus.length := by
  simp [searchResults, assignRanks_length, List.length_mergeSort]

theorem searchResults_sorted (corpus : List Embedding.EmbeddedChunk)
    (queryEmbedding : List ℚ) (topK : ℕ) :
    (searchResults corpus queryEmbedding topK).Pairwise
      (fun a b => b.similarity ≤ a.similarity) := by
  unfold searchResults
  exact pairwise_assignRanks _ _ (sorted_take_mergeSort _ _)

theorem searchResults_ranks (corpus : List Embedding.EmbeddedChunk)
    (queryEmbedding : List ℚ) (topK : ℕ) :
    (searchResults corpus queryEmbedding topK).map (·.rank) =
      List.range' 1 (min topK corpus.length) := by
  unfold searchResults
  rw [assignRanks_map_rank]
  simp [List.length_mergeSort]

theorem zipWith_mul_self (v : List ℚ) :
    List.zipWith (· * ·) v v = v.map (fun x => x * x) := by
  induction v with
  | nil => rfl
  | cons x xs ih => simp [ih]

theorem dotProduct_self (v : List ℚ) : dotProduct v v = normSq v := by
  simp [dotProduct, normSq, zipWith_mul_self]

theorem normSq_nonneg (v : List ℚ) : 0 ≤ normSq v := by
  induction v with
  | nil => simp [normSq]
  | cons x xs ih =>
    simp only [normSq, List.map_cons, List.sum_cons]
    have := mul_self_nonneg x
    simp only [normSq] at ih
    linarith

theorem normSq_pos (v : List ℚ) (x : ℚ) (hx : x ∈ v) (hx0 : x ≠ 0) : 0 < normSq v := by
  induction v with
  | nil => cases hx
  | cons a t ih =>
    simp only [normSq, List.map_cons, List.sum_cons]
    have ht : (0:ℚ) ≤ normSq t := normSq_nonneg t
    simp only [normSq] at ht
    rcases List.mem_cons.mp hx with rfl | hmem
    · have : 0 < x * x := mul_self_pos.mpr hx0
      linarith
    · have := ih hmem
      simp only [normSq] at this
      have ha : (0:ℚ) ≤ a * a := mul_self_nonneg a
      linarith

end Vectorstore

namespace Vectorstore

theorem cosineSimilarity_self (v : List ℚ) (h : normSq v ≠ 0) :
    cosineSimilarity v v = 1 := by
  unfold cosineSimilarity
  rw [if_neg (by simp), if_neg (by simp [h])]
  rw [dotProduct_self]
  have hnn : (0:ℝ) ≤ ((normSq v : ℚ) : ℝ) := by
    exact_mod_cast normSq_nonneg v
  rw [Real.mul_self_sqrt hnn]
  have hne : ((normSq v : ℚ) : ℝ) ≠ 0 := by exact_mod_cast h
  exact div_self hne

theorem cosineSimilarity_zero_norm (a b : List ℚ)
    (h : normSq a = 0 ∨ normSq b = 0) : cosineSimilarity a b = 0 := by
  unfold cosineSimilarity
  by_cases hl : a.length ≠ b.length
  · rw [if_pos hl]
  · rw [if_neg hl, if_pos h]

theorem cosineSimilarity_length_mismatch (a b : List ℚ)
    (h : a.length ≠ b.length) : cosineSimilarity a b = 0 := by
  unfold cosineSimilarity
  rw [if_pos h]

end Vectorstore

/-! ## Supporting lemmas: validator -/

namespace Validator

theorem chunkLoop_eq (p : String → Except String (List ℚ))
    (s : String → List ℚ → ℕ → Except String (List Embedding.SearchResult))
    (v : String) (chunks : List ContentChunk) :
    chunkLoop p s v chunks =
      (chunks.map (processChunk p s v),
       (((chunks.map (processChunk p s v)).filterMap (·.validation)).map (·.confidence)).sum,
       ((chunks.map (processChunk p s v)).filterMap (·.validation)).length) := by
  induction chunks with
  | nil => rfl
  | cons c rest ih =>
    simp only [chunkLoop, ih, List.map_cons]
    cases h : (processChunk p s v c).validation with
    | none => simp [List.filterMap_cons, h]
    | some val => simp [List.filterMap_cons, h, add_comm]

theorem processChunk_error_validation
    (p : String → Except String (List ℚ))
    (s : String → List ℚ → ℕ → Except String (List Embedding.SearchResult))
    (v : String) (c : ContentChunk) :
    ((processChunk p s v c).error.isNone ↔ (processChunk p s v c).validation.isSome) := by
  unfold processChunk
  rcases hp : p c.text with e | emb
  · simp
  · rcases hs : s v emb 3 with e | results
    · simp [hs]
    · simp [hs]

theorem sum_div_length_bounds (l : List ℚ) (hl : l ≠ [])
    (h : ∀ x ∈ l, -1 ≤ x ∧ x ≤ 1) :
    -1 ≤ l.sum / (l.length : ℚ) ∧ l.sum / (l.length : ℚ) ≤ 1 := by
  have hlen : 0 < (l.length : ℚ) := by
    have := List.length_pos.mpr hl
    exact_mod_cast this
  have hup : l.sum ≤ (l.length : ℚ) := by
    have := List.sum_le_card_nsmul l 1 (fun x hx => (h x hx).2)
    simpa [nsmul_eq_mul] using this
  have hlo : -(l.length : ℚ) ≤ l.sum := by
    have := List.card_nsmul_le_sum l (-1) (fun x hx => (h x hx).1)
    simpa [nsmul_eq_mul] using this
  constructor
  · rw [le_div_iff₀ hlen]
    linarith
  · rw [div_le_one hlen]
    exact hup

theorem handleChunked_ok (splitter : String → List String)
    (p : String → Except String (List ℚ))
    (s : String → List ℚ → ℕ → Except String (List Embedding.SearchResult))
    (content v : String) (agg : AggregatedValidationResult) (tr : List String)
    (h : HandleChunkedValidation splitter p s content v = (.ok agg, tr)) :
    agg.chunkResults = (ChunkContent splitter content).chunks.map (processChunk p s v)
    ∧ agg.overall = overallValidation
        ((agg.chunkResults.filterMap (·.validation)).length)
        (((agg.chunkResults.filterMap (·.validation)).map (·.confidence)).sum /
          (((agg.chunkResults.filterMap (·.validation)).length : ℚ)))
        v := by
  simp only [HandleChunkedValidation, chunkLoop_eq] at h
  split at h
  · simp at h
  · simp only [Prod.mk.injEq, Except.ok.injEq] at h
    obtain ⟨h1, h2⟩ := h
    subst h1
    exact ⟨rfl, rfl⟩

theorem handleChunked_error_iff (splitter : String → List String)
    (p : String → Except String (List ℚ))
    (s : String → List ℚ → ℕ → Except String (List Embedding.SearchResult))
    (content v : String) :
    (∃ e tr, HandleChunkedValidation splitter p s content v = (.error e, tr)) ↔
      (ChunkContent splitter content).chunks = [] := by
  by_cases hemp : (ChunkContent splitter content).chunks.isEmpty
  · have hnil := List.isEmpty_iff.mp hemp
    simp [HandleChunkedValidation, hemp, hnil]
  · have hnil : ¬ (ChunkContent splitter content).chunks = [] :=
      fun h => absurd (List.isEmpty_iff.mpr h) hemp
    simp [HandleChunkedValidation, hemp, hnil]

end Validator

/-! ## Claim theorems: vector store (C1, C7, C10) -/

namespace Vectorstore

/-- C1: for every loaded corpus of n reference chunks, every query vector and
every requested topK k, search returns exactly min(k, n) matches, sorted by
non-increasing similarity, with ranks assigned densely as 1, ..., min(k, n)
in that sorted order. -/
theorem search_min_topk_sorted_dense_ranks
    (corpus : List Embedding.EmbeddedChunk) (queryEmbedding : List ℚ) (topK : ℕ) :
    Search (.ok corpus) queryEmbedding topK = .ok (searchResults corpus queryEmbedding topK)
    ∧ (searchResults corpus queryEmbedding topK).length = min topK corpus.length
    ∧ (searchResults corpus queryEmbedding topK).Pairwise
        (fun a b => b.similarity ≤ a.similarity)
    ∧ (searchResults corpus queryEmbedding topK).map (·.rank) =
        List.range' 1 (min topK corpus.length) :=
  ⟨rfl, searchResults_length corpus queryEmbedding topK,
   searchResults_sorted corpus queryEmbedding topK,
   searchResults_ranks corpus queryEmbedding topK⟩

/-- C7: cosine similarity of a nonzero vector with itself is 1, and whenever
either argument has zero norm the function returns 0 instead of raising a
division-by-zero error. -/
theorem cosine_self_one_and_zero_norm_zero :
    (∀ v : List ℚ, (∃ x ∈ v, x ≠ 0) → cosineSimilarity v v = 1)
    ∧ (∀ a b : List ℚ, normSq a = 0 ∨ normSq b = 0 → cosineSimilarity a b = 0) :=
  ⟨fun v h => by
    rcases h with ⟨x, hx, hx0⟩
    exact cosineSimilarity_self v (normSq_pos v x hx hx0).ne',
   cosineSimilarity_zero_norm⟩

/-- Witness for C7 at the concrete vectors [1, 0] and [0]. -/
theorem cosine_self_one_and_zero_norm_zero_witness :
    (∃ x ∈ [(1:ℚ), 0], x ≠ 0)
    ∧ cosineSimilarity [(1:ℚ), 0] [(1:ℚ), 0] = 1
    ∧ (normSq [(0:ℚ)] = 0 ∨ normSq [(1:ℚ)] = 0)
    ∧ cosineSimilarity [(0:ℚ)] [(1:ℚ)] = 0 := by
  have h1 : ∃ x ∈ [(1:ℚ), 0], x ≠ 0 := ⟨1, by norm_num⟩
  have h2 : normSq [(0:ℚ)] = 0 ∨ normSq [(1:ℚ)] = 0 := by
    left
    norm_num [normSq]
  exact ⟨h1, cosine_self_one_and_zero_norm_zero.1 _ h1, h2,
    cosine_self_one_and_zero_norm_zero.2 _ _ h2⟩

/-- C10 counterexample: on a query whose dimensionality differs from the
corpus embeddings, Search surfaces no error at all; it returns an ordinary
ranked result whose similarity is silently 0. -/
theorem search_dimension_mismatch_counterexample :
    Search (.ok [⟨"c0", "draft", "ref text", [1, 0]⟩]) [(1:ℚ)] 1 =
      .ok [{ chunk := ⟨"c0", "draft", "ref text", [1, 0]⟩, similarity := 0, rank := 1 }] := by
  have hcos : cosineSimilarity [(1:ℚ)] [(1:ℚ), 0] = 0 :=
    cosineSimilarity_length_mismatch _ _ (by norm_num)
  simp [Search, searchResults, List.mergeSort_singleton, assignRanks, hcos]

/-- C10 amended: a dimensionality mismatch is silently tolerated, not
surfaced: cosineSimilarity yields 0 for any mismatched pair, and Search on a
successfully loaded corpus always returns ordinary results, never an error. -/
theorem dimension_mismatch_silently_tolerated :
    (∀ a b : List ℚ, a.length ≠ b.length → cosineSimilarity a b = 0)
    ∧ (∀ (corpus : List Embedding.EmbeddedChunk) (q : List ℚ) (k : ℕ),
        Search (.ok corpus) q k = .ok (searchResults corpus q k)) :=
  ⟨cosineSimilarity_length_mismatch, fun _ _ _ => rfl⟩

/-- Witness for the amended C10 at a concrete mismatched pair. -/
theorem dimension_mismatch_silently_tolerated_witness :
    ([(1:ℚ)].length ≠ [(1:ℚ), 0].length)
    ∧ cosineSimilarity [(1:ℚ)] [(1:ℚ), 0] = 0 :=
  ⟨by norm_num, dimension_mismatch_silently_tolerated.1 _ _ (by norm_num)⟩

end Vectorstore

/-! ## Claim theorems: analyzers (C2, C5) -/

namespace Validator

/-- C2: for a non-empty match list both text-content analyzers return
confidence equal to the mean similarity, are valid exactly when it exceeds
0.7, and below that threshold emit a misalignment issue plus, below 0.5, a
low-similarity issue; for an empty match list they return confidence 0.1,
isValid false and a non-empty issues list without computing a mean. -/
theorem content_analyzer_mean_threshold
    (content : String) (results : List Embedding.SearchResult) (specVersion : String)
    (h : results ≠ []) :
    ((analyzeContentValidation content results specVersion).confidence = avgSimilarity results
    ∧ ((analyzeContentValidation content results specVersion).isValid = true ↔
        7/10 < avgSimilarity results)
    ∧ (¬ 7/10 < avgSimilarity results →
        "Content may not align with MCP specification" ∈
          (analyzeContentValidation content results specVersion).issues
        ∧ (avgSimilarity results < 1/2 →
            "Low similarity to MCP patterns detected" ∈
              (analyzeContentValidation content results specVersion).issues))
    ∧ (analyzeChunkValidation content results specVersion).confidence = avgSimilarity results
    ∧ ((analyzeChunkValidation content results specVersion).isValid = true ↔
        7/10 < avgSimilarity results))
    ∧ ((analyzeContentValidation content [] specVersion).confidence = 1/10
    ∧ (analyzeContentValidation content [] specVersion).isValid = false
    ∧ (analyzeContentValidation content [] specVersion).issues ≠ []
    ∧ (analyzeChunkValidation content [] specVersion).confidence = 1/10
    ∧ (analyzeChunkValidation content [] specVersion).isValid = false
    ∧ (analyzeChunkValidation content [] specVersion).issues ≠ []) := by
  have hne : results.isEmpty = false := by
    simpa [List.isEmpty_iff] using h
  constructor
  · refine ⟨?_, ?_, ?_, ?_, ?_⟩
    · simp [analyzeContentValidation, hne]
    · simp [analyzeContentValidation, hne]
    · intro hnv
      have hv : decide (avgSimilarity results > 7/10) = false := by
        simpa using hnv
      constructor
      · simp only [analyzeContentValidation, hne, hv, Bool.false_eq_true, if_false]
        simp [le_of_not_lt hnv]
      · intro hlow
        simp only [analyzeContentValidation, hne, hv, Bool.false_eq_true, if_false]
        rw [if_neg hnv, if_pos hlow]
        simp
    · simp [analyzeChunkValidation, hne]
    · simp [analyzeChunkValidation, hne]
  · refine ⟨rfl, rfl, ?_, rfl, rfl, ?_⟩
    · simp [analyzeContentValidation]
    · simp [analyzeChunkValidation]

/-- Witness for C2 at one concrete match of similarity 4/5. -/
theorem content_analyzer_mean_threshold_witness :
    ([⟨⟨"r1", "draft", "ref", []⟩, 4/5, 1⟩] : List Embedding.SearchResult) ≠ []
    ∧ (analyzeContentValidation "sub" [⟨⟨"r1", "draft", "ref", []⟩, 4/5, 1⟩] "draft").confidence
        = avgSimilarity [⟨⟨"r1", "draft", "ref", []⟩, 4/5, 1⟩] := by
  have h : ([⟨⟨"r1", "draft", "ref", []⟩, 4/5, 1⟩] : List Embedding.SearchResult) ≠ [] := by
    simp
  exact ⟨h, ((content_analyzer_mean_threshold "sub" _ "draft" h).1).1⟩

/-- C5: with at least one search match, the code validator is valid exactly
when the mean similarity exceeds 0.6 and at least one domain pattern was
detected in the derived code analysis, and its confidence is the mean
similarity scaled by detectedPatternCount / 3. -/
theorem code_validity_requires_patterns_and_scales
    (code codeAnalysis : String) (results : List Embedding.SearchResult) (specVersion : String)
    (h : results ≠ []) :
    ((analyzeCodeValidation code codeAnalysis results specVersion).isValid = true ↔
      (6/10 < avgSimilarity results ∧ detectedPatterns codeAnalysis ≠ []))
    ∧ (analyzeCodeValidation code codeAnalysis results specVersion).confidence =
        avgSimilarity results * (((detectedPatterns codeAnalysis).length : ℚ) / 3) := by
  have hne : results.isEmpty = false := by
    simpa [List.isEmpty_iff] using h
  constructor
  · simp [analyzeCodeValidation, hne, List.isEmpty_iff]
  · simp [analyzeCodeValidation, hne]

/-- Witness for C5 at one concrete match of similarity 9/10 and an analysis
string containing the JSON-RPC marker. -/
theorem code_validity_requires_patterns_and_scales_witness :
    ([⟨⟨"r1", "draft", "ref", []⟩, 9/10, 1⟩] : List Embedding.SearchResult) ≠ []
    ∧ (analyzeCodeValidation "code" "uses JSON-RPC calls"
        [⟨⟨"r1", "draft", "ref", []⟩, 9/10, 1⟩] "draft").confidence =
      avgSimilarity [⟨⟨"r1", "draft", "ref", []⟩, 9/10, 1⟩] *
        (((detectedPatterns "uses JSON-RPC calls").length : ℚ) / 3) := by
  have h : ([⟨⟨"r1", "draft", "ref", []⟩, 9/10, 1⟩] : List Embedding.SearchResult) ≠ [] := by
    simp
  exact ⟨h, (code_validity_requires_patterns_and_scales "code" _ _ "draft" h).2⟩

end Validator

namespace Validator

theorem overallValidation_confidence (n : ℕ) (avg : ℚ) (v : String) :
    (overallValidation n avg v).confidence = avg := by
  unfold overallValidation
  split <;> rfl

theorem overallValidation_isValid (n : ℕ) (avg : ℚ) (v : String) :
    ((overallValidation n avg v).isValid = true ↔ 7/10 < avg) := by
  unfold overallValidation
  split <;> rename_i hc
  · simpa using hc
  · simpa using hc

/-- C3: the overall confidence of an aggregated validation is the arithmetic
mean of the confidences of exactly the chunks analyzed without error, and the
overall verdict is valid exactly when that mean exceeds 0.7.  Entries carry a
verdict exactly when they carry no error, so errored chunks are excluded from
the mean rather than contributing zero. -/
theorem aggregate_overall_mean_of_successful_chunks
    (splitter : String → List String)
    (p : String → Except String (List ℚ))
    (s : String → List ℚ → ℕ → Except String (List Embedding.SearchResult))
    (content v : String) (agg : AggregatedValidationResult) (tr : List String)
    (h : HandleChunkedValidation splitter p s content v = (.ok agg, tr))
    (hs : agg.chunkResults.filterMap (·.validation) ≠ []) :
    agg.overall.confidence =
      ((agg.chunkResults.filterMap (·.validation)).map (·.confidence)).sum /
        ((agg.chunkResults.filterMap (·.validation)).length : ℚ)
    ∧ (agg.overall.isValid = true ↔
        7/10 < ((agg.chunkResults.filterMap (·.validation)).map (·.confidence)).sum /
          ((agg.chunkResults.filterMap (·.validation)).length : ℚ))
    ∧ (∀ e ∈ agg.chunkResults, (e.error.isNone ↔ e.validation.isSome)) := by
  obtain ⟨h1, h2⟩ := handleChunked_ok splitter p s content v agg tr h
  refine ⟨?_, ?_, ?_⟩
  · rw [h2, overallValidation_confidence]
  · rw [h2, overallValidation_isValid]
  · intro e he
    rw [h1] at he
    rcases List.mem_map.mp he with ⟨c, _, rfl⟩
    exact processChunk_error_validation p s v c

/-- The aggregate produced by the concrete single-chunk witness run for C3. -/
def c3WitnessAggregate : AggregatedValidationResult :=
  { chunkResults :=
      [{ chunk := { id := "chunk-0", text := "hello", position := 0, kind := "text_chunk" }
         validation := some
           { isValid := true, confidence := 9/10, specVersion := "draft" }
         error := none }]
    overall := { isValid := true, confidence := 9/10, specVersion := "draft" }
    summary := "Analyzed 1 content chunks"
    specVersion := "draft" }

/-- Witness for C3: a one-chunk run whose single search match has similarity
9/10, so the overall confidence is exactly 9/10. -/
theorem aggregate_overall_mean_witness :
    HandleChunkedValidation (fun _ => ["hello"]) (fun _ => .ok [1])
      (fun _ _ _ => .ok [⟨⟨"r1", "draft", "ref", []⟩, 9/10, 1⟩]) "x" "draft" =
      (.ok c3WitnessAggregate, ["hello"])
    ∧ c3WitnessAggregate.chunkResults.filterMap (·.validation) ≠ []
    ∧ c3WitnessAggregate.overall.confidence =
      ((c3WitnessAggregate.chunkResults.filterMap (·.validation)).map (·.confidence)).sum /
        ((c3WitnessAggregate.chunkResults.filterMap (·.validation)).length : ℚ) := by
  have h : HandleChunkedValidation (fun _ => ["hello"]) (fun _ => .ok [1])
      (fun _ _ _ => .ok [⟨⟨"r1", "draft", "ref", []⟩, 9/10, 1⟩]) "x" "draft" =
      (.ok c3WitnessAggregate, ["hello"]) := by
    have ht1 : trimSpace "x" = "x" := by decide
    have ht2 : trimSpace "hello" = "hello" := by decide
    have ht3 : generateChunkID "chunk" 0 = "chunk-0" := by decide
    have ht4 : "Analyzed " ++ toString (1:ℕ) ++ " content chunks" =
        "Analyzed 1 content chunks" := by decide
    have hne : ("x" : String) ≠ "" := by decide
    norm_num [HandleChunkedValidation, ChunkContent, ht1, ht2, ht3, ht4, hne,
      chunkLoop, processChunk, analyzeChunkValidation, avgSimilarity, totalSimilarity,
      overallValidation, c3WitnessAggregate]
  have hs : c3WitnessAggregate.chunkResults.filterMap (·.validation) ≠ [] := by
    simp [c3WitnessAggregate]
  exact ⟨h, hs,
    (aggregate_overall_mean_of_successful_chunks _ _ _ _ _ _ _ h hs).1⟩

end Validator

namespace Validator

/-- C4 amended: a provider or store error on one chunk is recorded against
that chunk entry only and the remaining chunks are still processed — the
entry list is exactly the independent per-chunk map.  But the overall request
never fails outright because chunks errored: it fails exactly when chunking
produced zero chunks, and when every chunk errors it still returns an
aggregate (whose average is then Go NaN, computed from zero successes). -/
theorem chunk_failure_isolation
    (splitter : String → List String)
    (p : String → Except String (List ℚ))
    (s : String → List ℚ → ℕ → Except String (List Embedding.SearchResult))
    (content v : String) :
    (∀ agg tr, HandleChunkedValidation splitter p s content v = (.ok agg, tr) →
      agg.chunkResults = (ChunkContent splitter content).chunks.map (processChunk p s v))
    ∧ ((∃ e tr, HandleChunkedValidation splitter p s content v = (.error e, tr)) ↔
        (ChunkContent splitter content).chunks = []) :=
  ⟨fun agg tr h => (handleChunked_ok splitter p s content v agg tr h).1,
   handleChunked_error_iff splitter p s content v⟩

/-- The aggregate produced by the concrete witness run for C4: the first
chunk fails at the provider, the second is analyzed normally. -/
def c4WitnessAggregate : AggregatedValidationResult :=
  { chunkResults :=
      [{ chunk := { id := "chunk-0", text := "a", position := 0, kind := "text_chunk" }
         validation := none
         error := some "failed to generate embedding: boom" },
       { chunk := { id := "chunk-1", text := "b", position := 1, kind := "text_chunk" }
         validation := some
           { isValid := false, confidence := 1/10
             issues := ["No relevant MCP specification content found for this section"]
             specVersion := "v" }
         error := none }]
    overall :=
      { isValid := false, confidence := 1/10
        issues := ["1 chunks analyzed with average confidence",
                   "Multiple sections show low alignment with MCP specification"]
        suggestions := ["Review flagged sections against MCP specification",
                        "Consider using standard MCP terminology throughout"]
        specVersion := "v" }
    summary := "Analyzed 2 content chunks"
    specVersion := "v" }

/-- Witness for C4: with two chunks, a provider failure on the first chunk is
recorded on its entry alone and the second chunk is still analyzed. -/
theorem chunk_failure_isolation_witness :
    HandleChunkedValidation (fun _ => ["a", "b"])
      (fun t => if t = "a" then .error "boom" else .ok [1])
      (fun _ _ _ => .ok []) "x" "v" = (.ok c4WitnessAggregate, ["a", "b"])
    ∧ c4WitnessAggregate.chunkResults =
      (ChunkContent (fun _ => ["a", "b"]) "x").chunks.map
        (processChunk (fun t => if t = "a" then .error "boom" else .ok [1])
          (fun _ _ _ => .ok []) "v") := by
  have ht1 : trimSpace "x" = "x" := by decide
  have ht2 : trimSpace "a" = "a" := by decide
  have ht3 : trimSpace "b" = "b" := by decide
  have ht4 : generateChunkID "chunk" 0 = "chunk-0" := by decide
  have ht5 : generateChunkID "chunk" 1 = "chunk-1" := by decide
  have ht6 : "Analyzed " ++ toString (2:ℕ) ++ " content chunks" =
      "Analyzed 2 content chunks" := by decide
  have ht7 : toString (1:ℕ) ++ " chunks analyzed with average confidence" =
      "1 chunks analyzed with average confidence" := by decide
  have hne : ("x" : String) ≠ "" := by decide
  have hba : ("b" : String) ≠ "a" := by decide
  have henum : (["a", "b"] : List String).enum = [(0, "a"), (1, "b")] := by decide
  have hsb : "failed to generate embedding: " ++ "boom" =
      "failed to generate embedding: boom" := by decide
  have h : HandleChunkedValidation (fun _ => ["a", "b"])
      (fun t => if t = "a" then .error "boom" else .ok [1])
      (fun _ _ _ => .ok []) "x" "v" = (.ok c4WitnessAggregate, ["a", "b"]) := by
    norm_num [HandleChunkedValidation, ChunkContent, ht1, ht2, ht3, ht4, ht5, ht6, ht7,
      hne, hba, henum, hsb, Function.comp, chunkLoop, processChunk, analyzeChunkValidation,
      avgSimilarity, totalSimilarity, overallValidation, c4WitnessAggregate]
  exact ⟨h, (chunk_failure_isolation _ _ _ "x" "v").1 c4WitnessAggregate ["a", "b"] h⟩

/-- C4 counterexample: when every chunk errors, the request does not fail
outright — it still returns an aggregate whose entries all carry errors. -/
theorem chunked_all_error_counterexample :
    ((HandleChunkedValidation (fun _ => ["a", "b"]) (fun _ => .error "boom")
        (fun _ _ _ => .ok []) "x" "v").1.isOk = true)
    ∧ ((((HandleChunkedValidation (fun _ => ["a", "b"]) (fun _ => .error "boom")
        (fun _ _ _ => .ok []) "x" "v").1.toOption.map
          (fun agg => agg.chunkResults.all (fun e => e.error.isSome))).getD false) = true) := by
  constructor <;> decide

end Validator

namespace Validator

/-- C6: a request naming a spec version outside the known set is rejected
with the invalid-version error before any embedding-provider call: both
handlers return the error with an empty provider-call trace. -/
theorem invalid_version_rejected_before_provider
    (splitter : String → List String)
    (p : String → Except String (List ℚ))
    (s : String → List ℚ → ℕ → Except String (List Embedding.SearchResult))
    (params : ValidateContentParams) (codeParams : ValidateCodeParams)
    (h1 : Specs.IsValidSpecVersion (params.specVersion.getD Specs.DefaultSpecVersion) = false)
    (h2 : Specs.IsValidSpecVersion (codeParams.specVersion.getD Specs.DefaultSpecVersion) = false) :
    HandleValidateContent splitter p s params =
      (.error ("invalid spec version: " ++ params.specVersion.getD Specs.DefaultSpecVersion), [])
    ∧ HandleValidateCode p s codeParams =
      (.error ("invalid spec version: " ++ codeParams.specVersion.getD Specs.DefaultSpecVersion), []) := by
  constructor
  · simp [HandleValidateContent, h1]
  · simp [HandleValidateCode, h2]

/-- Witness for C6 at the unknown version 9999-99-99. -/
theorem invalid_version_rejected_before_provider_witness :
    Specs.IsValidSpecVersion "9999-99-99" = false
    ∧ HandleValidateContent (fun _ => []) (fun _ => .ok []) (fun _ _ _ => .ok [])
        { content := "c", specVersion := some "9999-99-99" } =
      (.error "invalid spec version: 9999-99-99", []) := by
  have h : Specs.IsValidSpecVersion "9999-99-99" = false := by decide
  have happ : "invalid spec version: " ++ "9999-99-99" = "invalid spec version: 9999-99-99" := by
    decide
  refine ⟨h, ?_⟩
  have := (invalid_version_rejected_before_provider (fun _ => []) (fun _ => .ok [])
    (fun _ _ _ => .ok []) { content := "c", specVersion := some "9999-99-99" }
    { code := "k", specVersion := some "9999-99-99" } h h).1
  simpa [happ] using this

end Validator

namespace Embedding

/-- C8 amended: GenerateEmbedding performs no retry at all — it consults only
the first client outcome (so two clients agreeing on attempt 0 produce the
same result), makes exactly one call, and surfaces a first-attempt failure
directly, transient or not. -/
theorem generate_embedding_single_attempt
    (client client' : ℕ → Except ProviderFailure EmbeddingResponse)
    (h : client 0 = client' 0) :
    (GenerateEmbedding client).2 = 1
    ∧ GenerateEmbedding client = GenerateEmbedding client'
    ∧ (∀ e, client 0 = .error e →
        (GenerateEmbedding client).1 = .error ("failed to create embedding: " ++ e.message)) := by
  refine ⟨?_, ?_, ?_⟩
  · unfold GenerateEmbedding
    rcases client 0 with e | resp
    · rfl
    · rcases hd : resp.data with _ | ⟨d, rest⟩ <;> simp [hd]
  · unfold GenerateEmbedding
    rw [h]
  · intro e he
    unfold GenerateEmbedding
    rw [he]

/-- Witness for C8 amended, at a client whose first attempt fails. -/
theorem generate_embedding_single_attempt_witness :
    ((fun _ => .error ⟨"boom", true⟩ : ℕ → Except ProviderFailure EmbeddingResponse) 0 =
      (fun _ => .error ⟨"boom", true⟩ : ℕ → Except ProviderFailure EmbeddingResponse) 0)
    ∧ (GenerateEmbedding (fun _ => .error ⟨"boom", true⟩)).2 = 1
    ∧ (GenerateEmbedding (fun _ => .error ⟨"boom", true⟩)).1 =
        .error ("failed to create embedding: " ++ "boom") :=
  ⟨rfl,
   (generate_embedding_single_attempt _ _ rfl).1,
   (generate_embedding_single_attempt
      (fun _ => .error ⟨"boom", true⟩) (fun _ => .error ⟨"boom", true⟩) rfl).2.2
     ⟨"boom", true⟩ rfl⟩

/-- C8 counterexample: a transient first-attempt failure is surfaced directly
even though a second attempt would have succeeded; only one call is made, so
no retry is performed. -/
theorem generate_embedding_no_retry_counterexample :
    GenerateEmbedding (fun n => if n = 0 then .error ⟨"request timeout", true⟩
      else .ok ⟨[⟨[1]⟩]⟩) =
      (.error ("failed to create embedding: " ++ "request timeout"), 1) := rfl

end Embedding

namespace Validator

theorem avgSimilarity_bounds (results : List Embedding.SearchResult)
    (h : results ≠ []) (hb : ∀ r ∈ results, -1 ≤ r.similarity ∧ r.similarity ≤ 1) :
    -1 ≤ avgSimilarity results ∧ avgSimilarity results ≤ 1 := by
  have hmap : results.map (·.similarity) ≠ [] := by
    simpa using h
  have hbs : ∀ x ∈ results.map (·.similarity), -1 ≤ x ∧ x ≤ 1 := by
    intro x hx
    rcases List.mem_map.mp hx with ⟨r, hr, rfl⟩
    exact hb r hr
  have := sum_div_length_bounds (results.map (·.similarity)) hmap hbs
  simpa [avgSimilarity, totalSimilarity] using this

theorem analyzeContent_confidence_bounds (content : String)
    (results : List Embedding.SearchResult) (v : String)
    (hb : ∀ r ∈ results, -1 ≤ r.similarity ∧ r.similarity ≤ 1) :
    -1 ≤ (analyzeContentValidation content results v).confidence
    ∧ (analyzeContentValidation content results v).confidence ≤ 1 := by
  by_cases hne : results = []
  · subst hne
    constructor <;> norm_num [analyzeContentValidation]
  · have hemp : results.isEmpty = false := by simpa [List.isEmpty_iff] using hne
    have hconf : (analyzeContentValidation content results v).confidence =
        avgSimilarity results := by
      simp [analyzeContentValidation, hemp]
    rw [hconf]
    exact avgSimilarity_bounds results hne hb

theorem analyzeChunk_confidence_bounds (content : String)
    (results : List Embedding.SearchResult) (v : String)
    (hb : ∀ r ∈ results, -1 ≤ r.similarity ∧ r.similarity ≤ 1) :
    -1 ≤ (analyzeChunkValidation content results v).confidence
    ∧ (analyzeChunkValidation content results v).confidence ≤ 1 := by
  by_cases hne : results = []
  · subst hne
    constructor <;> norm_num [analyzeChunkValidation]
  · have hemp : results.isEmpty = false := by simpa [List.isEmpty_iff] using hne
    have hconf : (analyzeChunkValidation content results v).confidence =
        avgSimilarity results := by
      simp [analyzeChunkValidation, hemp]
    rw [hconf]
    exact avgSimilarity_bounds results hne hb

theorem detectedPatterns_length_le (codeAnalysis : String) :
    (detectedPatterns codeAnalysis).length ≤ 3 := by
  unfold detectedPatterns
  by_cases c1 : strContains codeAnalysis "JSON-RPC" <;>
    by_cases c2 : strContains codeAnalysis "MCP tools" <;>
      by_cases c3 : strContains codeAnalysis "MCP server" <;>
        simp [c1, c2, c3]

theorem analyzeCode_confidence_bounds (code codeAnalysis : String)
    (results : List Embedding.SearchResult) (v : String)
    (hb : ∀ r ∈ results, -1 ≤ r.similarity ∧ r.similarity ≤ 1) :
    -1 ≤ (analyzeCodeValidation code codeAnalysis results v).confidence
    ∧ (analyzeCodeValidation code codeAnalysis results v).confidence ≤ 1 := by
  by_cases hne : results = []
  · subst hne
    constructor <;> norm_num [analyzeCodeValidation]
  · have hemp : results.isEmpty = false := by simpa [List.isEmpty_iff] using hne
    have hconf : (analyzeCodeValidation code codeAnalysis results v).confidence =
        avgSimilarity results * (((detectedPatterns codeAnalysis).length : ℚ) / 3) := by
      simp [analyzeCodeValidation, hemp]
    rw [hconf]
    obtain ⟨hlo, hup⟩ := avgSimilarity_bounds results hne hb
    have hcnt : ((detectedPatterns codeAnalysis).length : ℚ) ≤ 3 := by
      exact_mod_cast detectedPatterns_length_le codeAnalysis
    have hcnt0 : (0:ℚ) ≤ ((detectedPatterns codeAnalysis).length : ℚ) := by positivity
    constructor <;> nlinarith

theorem processChunk_validation_eq
    (p : String → Except String (List ℚ))
    (s : String → List ℚ → ℕ → Except String (List Embedding.SearchResult))
    (v : String) (c : ContentChunk) (val : ValidationResult)
    (h : (processChunk p s v c).validation = some val) :
    ∃ emb res, p c.text = .ok emb ∧ s v emb 3 = .ok res ∧
      val = analyzeChunkValidation c.text res v := by
  rcases hp : p c.text with e | emb
  · have hv : (processChunk p s v c).validation = none := by
      simp [processChunk, hp]
    rw [hv] at h
    cases h
  · rcases hs : s v emb 3 with e | res
    · have hv : (processChunk p s v c).validation = none := by
        simp [processChunk, hp, hs]
      rw [hv] at h
      cases h
    · have hv : (processChunk p s v c).validation =
          some (analyzeChunkValidation c.text res v) := by
        simp [processChunk, hp, hs]
      rw [hv] at h
      simp only [Option.some.injEq] at h
      exact ⟨emb, res, rfl, hs, h.symm⟩

end Validator

namespace Validator

theorem aggregate_overall_confidence_bounds (splitter : String → List String)
    (p : String → Except String (List ℚ))
    (s : String → List ℚ → ℕ → Except String (List Embedding.SearchResult))
    (content v : String) (agg : AggregatedValidationResult) (tr : List String)
    (h : HandleChunkedValidation splitter p s content v = (.ok agg, tr))
    (hsearch : ∀ ver emb k res, s ver emb k = .ok res →
      ∀ r ∈ res, -1 ≤ r.similarity ∧ r.similarity ≤ 1)
    (hs : agg.chunkResults.filterMap (·.validation) ≠ []) :
    -1 ≤ agg.overall.confidence ∧ agg.overall.confidence ≤ 1 := by
  obtain ⟨h1, h2⟩ := handleChunked_ok splitter p s content v agg tr h
  rw [h2, overallValidation_confidence]
  have hmapne : (agg.chunkResults.filterMap (·.validation)).map (·.confidence) ≠ [] := by
    simpa using hs
  have hbs : ∀ x ∈ (agg.chunkResults.filterMap (·.validation)).map (·.confidence),
      -1 ≤ x ∧ x ≤ 1 := by
    intro x hx
    rcases List.mem_map.mp hx with ⟨val, hval, rfl⟩
    rcases List.mem_filterMap.mp hval with ⟨entry, hentry, hev⟩
    rw [h1] at hentry
    rcases List.mem_map.mp hentry with ⟨c, _, rfl⟩
    rcases processChunk_validation_eq p s v c val hev with ⟨emb, res, _, hse, hveq⟩
    rw [hveq]
    exact analyzeChunk_confidence_bounds c.text res v (hsearch v emb 3 res hse)
  have := sum_div_length_bounds _ hmapne hbs
  simpa [List.length_map] using this

/-- C9 counterexample: a single search match of cosine similarity -1 (an
anti-aligned pair, within the cosine range) yields a verdict whose confidence
is -1, outside [0, 1]. -/
theorem confidence_unit_interval_counterexample :
    ¬ (0 ≤ (analyzeContentValidation "c"
          [⟨⟨"r1", "draft", "ref", []⟩, -1, 1⟩] "draft").confidence
       ∧ (analyzeContentValidation "c"
          [⟨⟨"r1", "draft", "ref", []⟩, -1, 1⟩] "draft").confidence ≤ 1) := by
  norm_num [analyzeContentValidation, avgSimilarity, totalSimilarity]

/-- C9 amended: whenever every match similarity lies in the cosine range
[-1, 1], every verdict produced by the three analyzer variants has confidence
in [-1, 1], and so does the aggregated overall verdict whenever at least one
chunk was analyzed without error. -/
theorem verdict_confidence_within_cosine_range :
    (∀ (content : String) (results : List Embedding.SearchResult) (v : String),
      (∀ r ∈ results, -1 ≤ r.similarity ∧ r.similarity ≤ 1) →
      -1 ≤ (analyzeContentValidation content results v).confidence
      ∧ (analyzeContentValidation content results v).confidence ≤ 1)
    ∧ (∀ (content : String) (results : List Embedding.SearchResult) (v : String),
      (∀ r ∈ results, -1 ≤ r.similarity ∧ r.similarity ≤ 1) →
      -1 ≤ (analyzeChunkValidation content results v).confidence
      ∧ (analyzeChunkValidation content results v).confidence ≤ 1)
    ∧ (∀ (code codeAnalysis : String) (results : List Embedding.SearchResult) (v : String),
      (∀ r ∈ results, -1 ≤ r.similarity ∧ r.similarity ≤ 1) →
      -1 ≤ (analyzeCodeValidation code codeAnalysis results v).confidence
      ∧ (analyzeCodeValidation code codeAnalysis results v).confidence ≤ 1)
    ∧ (∀ (splitter : String → List String) (p : String → Except String (List ℚ))
        (s : String → List ℚ → ℕ → Except String (List Embedding.SearchResult))
        (content v : String) (agg : AggregatedValidationResult) (tr : List String),
      HandleChunkedValidation splitter p s content v = (.ok agg, tr) →
      (∀ ver emb k res, s ver emb k = .ok res →
        ∀ r ∈ res, -1 ≤ r.similarity ∧ r.similarity ≤ 1) →
      agg.chunkResults.filterMap (·.validation) ≠ [] →
      -1 ≤ agg.overall.confidence ∧ agg.overall.confidence ≤ 1) :=
  ⟨analyzeContent_confidence_bounds, analyzeChunk_confidence_bounds,
   analyzeCode_confidence_bounds, aggregate_overall_confidence_bounds⟩

/-- Witness for the amended C9 at one concrete match of similarity 1/2. -/
theorem verdict_confidence_within_cosine_range_witness :
    (∀ r ∈ ([⟨⟨"r1", "draft", "ref", []⟩, 1/2, 1⟩] : List Embedding.SearchResult),
      -1 ≤ r.similarity ∧ r.similarity ≤ 1)
    ∧ (-1 ≤ (analyzeContentValidation "c"
          [⟨⟨"r1", "draft", "ref", []⟩, 1/2, 1⟩] "draft").confidence
      ∧ (analyzeContentValidation "c"
          [⟨⟨"r1", "draft", "ref", []⟩, 1/2, 1⟩] "draft").confidence ≤ 1) := by
  have hb : ∀ r ∈ ([⟨⟨"r1", "draft", "ref", []⟩, 1/2, 1⟩] : List Embedding.SearchResult),
      -1 ≤ r.similarity ∧ r.similarity ≤ 1 := by
    intro r hr
    rw [List.mem_singleton] at hr
    subst hr
    norm_num
  exact ⟨hb, verdict_confidence_within_cosine_range.1 "c" _ "draft" hb⟩

end Validator
